import Mathlib

/-!
# Verification of the argument-marshaling layer (`ArgDestination`)

Shallow embedding of `src/coreclr/vm/argdestination.h`: the scatter of a
composite argument into registers (SysV eightbyte path, ARM64 HFA path,
RISCV64 split hardware-floating path), zero-fill, and GC root reporting.

Memory is modelled byte-wise as `Mem := Nat → Nat`: a map from byte
addresses to byte values.  Multi-byte stores are modelled by their
byte-level effect (little-endian where it matters, e.g. NaN-boxing).
Debug-only `_ASSERTE` chains are mirrored by separate `Bool`-valued
predicates (`copyAssertsLoop`, ...), since in release builds the asserts
are trusted away and the copy proceeds regardless.
-/

/-- Byte-addressed memory: address to byte value. -/
abbrev Mem := Nat → Nat

/-- Copy `n` bytes from `src` starting at `pos` to destination address `dst`. -/
def copyBytes (m : Mem) (dst : Nat) (src : Mem) (pos n : Nat) : Mem :=
  fun a => if dst ≤ a ∧ a < dst + n then src (pos + (a - dst)) else m a

/-- Store the constant byte `v` at the `n` bytes starting at `dst`. -/
def storeConst (m : Mem) (dst n v : Nat) : Mem :=
  fun a => if dst ≤ a ∧ a < dst + n then v else m a

/-- The SysV classification of one eightbyte unit
(`SystemVClassificationType` in the source; only the members the file
uses are modelled). -/
inductive SystemVClassificationType where
  | NoClass
  | Integer
  | SSE
  | IntegerReference
  | IntegerByRef
deriving DecidableEq, Repr

/-- One eightbyte unit of a composite register layout: its byte size
(`EEClass::GetEightByteSize`) and classification
(`EEClass::GetEightByteClassification`). -/
structure EightByte where
  size : Nat
  classification : SystemVClassificationType
deriving DecidableEq, Repr

/-- The eightbyte units of an `EEClass` layout, in offset order. -/
abbrev EightByteLayout := List EightByte

/-- Total declared byte size of the eightbyte units. -/
def totalSize (units : EightByteLayout) : Nat :=
  (units.map EightByte.size).sum

/-- True for the two managed-reference classifications. -/
def isRefClass : SystemVClassificationType → Bool
  | .IntegerReference => true
  | .IntegerByRef => true
  | _ => false

/-- Address of `GetStructGenRegDestinationAddress` (UNIX_AMD64_ABI):
`m_base + TransitionBlock::GetOffsetOfArgumentRegisters() + m_idxGenReg * 8`.
The transition-block offset is passed in as `argRegsOffset`. -/
def GetStructGenRegDestinationAddress (base argRegsOffset idxGenReg : Nat) : Nat :=
  base + argRegsOffset + idxGenReg * 8

/-- Address of `GetStructFloatRegDestinationAddress` (UNIX_AMD64_ABI):
`m_base + TransitionBlock::GetOffsetOfFloatArgumentRegisters() + m_idxFloatReg * 16`. -/
def GetStructFloatRegDestinationAddress (base floatRegsOffset idxFloatReg : Nat) : Nat :=
  base + floatRegsOffset + idxFloatReg * 16

/-- Loop body of `ArgDestination::CopyStructToRegisters` (UNIX_AMD64_ABI).
`units` is the remaining tail of the eightbyte layout, `destOff` the
still-pending destination offset (nonzero only on the first iteration,
where the source mirrors `eightByteSize -= (destOffset & 7); destOffset = 0;`),
`srcPos` the source cursor, `g`/`f` the general-purpose and floating
register cursors.  An SSE unit stores 8 bytes when its (adjusted) size is
8 and 4 bytes otherwise, and advances the floating cursor by 16; any other
unit stores its adjusted size and advances the general cursor by it; the
source cursor advances by the adjusted size either way. -/
def copyLoop (units : EightByteLayout) (destOff : Nat) (src : Mem) (srcPos g f : Nat)
    (mem : Mem) : Mem :=
  match units with
  | [] => mem
  | u :: rest =>
      let sz := u.size - destOff % 8
      if u.classification = .SSE then
        copyLoop rest 0 src (srcPos + sz) g (f + 16)
          (copyBytes mem f src srcPos (if sz = 8 then 8 else 4))
      else
        copyLoop rest 0 src (srcPos + sz) (g + sz) f (copyBytes mem g src srcPos sz)

/-- `ArgDestination::CopyStructToRegisters` (UNIX_AMD64_ABI): starts at the
first eightbyte the `destOffset` did not skip completely
(`i = destOffset / 8`), with the general-register destination advanced by
`destOffset` and the floating destination not advanced. -/
def copyStructToRegisters (units : EightByteLayout) (src mem : Mem)
    (base argRegsOffset floatRegsOffset : Nat) (idxGenReg idxFloatReg : Nat)
    (destOffset : Nat) : Mem :=
  copyLoop (units.drop (destOffset / 8)) destOffset src 0
    (GetStructGenRegDestinationAddress base argRegsOffset idxGenReg + destOffset)
    (GetStructFloatRegDestinationAddress base floatRegsOffset idxFloatReg) mem

/-- The debug assertion chain of `CopyStructToRegisters` (UNIX_AMD64_ABI),
over the remaining units: `remainingBytes >= eightByteSize` at every step,
an SSE unit has adjusted size 8 or 4, a non-SSE unit of size 8 is
classified Integer/IntegerReference/IntegerByRef and one of any other
size is classified Integer, and finally `remainingBytes == 0`. -/
def copyAssertsLoop (units : EightByteLayout) (destOff : Nat) (remaining : Int) : Bool :=
  match units with
  | [] => remaining == 0
  | u :: rest =>
      let sz : Int := (u.size : Int) - (destOff % 8 : Nat)
      decide (sz ≤ remaining) &&
      (if u.classification = .SSE then
        sz == 8 || sz == 4
      else if sz == 8 then
        (u.classification == .Integer || u.classification == .IntegerReference ||
          u.classification == .IntegerByRef)
      else
        u.classification == .Integer) &&
      copyAssertsLoop rest 0 (remaining - sz)

/-- All debug assertions of `CopyStructToRegisters` hold for this layout,
declared size and destination offset. -/
def copyAssertsOk (units : EightByteLayout) (fieldBytes destOffset : Nat) : Bool :=
  copyAssertsLoop (units.drop (destOffset / 8)) destOffset (fieldBytes : Int)

/-- One store performed by the eightbyte copy loop: which register file it
targets, the destination address, the source offset read, and the number
of bytes written (equal to the number of bytes read). -/
structure CopyStep where
  isFloat : Bool
  destAddr : Nat
  srcOff : Nat
  writeBytes : Nat
deriving DecidableEq, Repr

/-- The store trace of `copyLoop`: same recursion, recording each store
instead of performing it. -/
def copyStepsLoop (units : EightByteLayout) (destOff srcPos g f : Nat) : List CopyStep :=
  match units with
  | [] => []
  | u :: rest =>
      let sz := u.size - destOff % 8
      if u.classification = .SSE then
        ⟨true, f, srcPos, if sz = 8 then 8 else 4⟩ ::
          copyStepsLoop rest 0 (srcPos + sz) g (f + 16)
      else
        ⟨false, g, srcPos, sz⟩ :: copyStepsLoop rest 0 (srcPos + sz) (g + sz) f

/-- The store trace of `copyStructToRegisters`. -/
def copySteps (units : EightByteLayout) (base argRegsOffset floatRegsOffset : Nat)
    (idxGenReg idxFloatReg : Nat) (destOffset : Nat) : List CopyStep :=
  copyStepsLoop (units.drop (destOffset / 8)) destOffset 0
    (GetStructGenRegDestinationAddress base argRegsOffset idxGenReg + destOffset)
    (GetStructFloatRegDestinationAddress base floatRegsOffset idxFloatReg)

/-- Replay a store trace against a source buffer and initial memory. -/
def applySteps : List CopyStep → Mem → Mem → Mem
  | [], _, mem => mem
  | s :: rest, src, mem =>
      applySteps rest src (copyBytes mem s.destAddr src s.srcOff s.writeBytes)

/-- Membership of address `a` in the bytes written by some step. -/
def inStepWrites (steps : List CopyStep) (a : Nat) : Bool :=
  steps.any fun s => s.destAddr ≤ a && a < s.destAddr + s.writeBytes

/-- Loop of `ArgDestination::ReportPointersFromStructInRegisters`
(UNIX_AMD64_ABI): returns the list of promotion-callback invocations
`(address, interiorFlag)` in order, paired with the total bytes visited
(the amount `remainingBytes` is decremented by over the loop).  A non-SSE
unit advances the general-register cursor by its size; a reference unit
additionally fires the callback at the current cursor, with the interior
flag (`GC_CALL_INTERIOR`) set exactly for `IntegerByRef`. -/
def reportLoop (units : EightByteLayout) (genRegDest : Nat) : List (Nat × Bool) × Nat :=
  match units with
  | [] => ([], 0)
  | u :: rest =>
      if u.classification = .SSE then
        let r := reportLoop rest genRegDest
        (r.1, u.size + r.2)
      else
        let calls :=
          if isRefClass u.classification then
            [(genRegDest, u.classification == .IntegerByRef)]
          else []
        let r := reportLoop rest (genRegDest + u.size)
        (calls ++ r.1, u.size + r.2)

/-- `ArgDestination::ReportPointersFromStructInRegisters`: the callback
trace starting from the general-register destination address. -/
def reportPointersFromStructInRegisters (units : EightByteLayout)
    (base argRegsOffset idxGenReg : Nat) : List (Nat × Bool) × Nat :=
  reportLoop units (GetStructGenRegDestinationAddress base argRegsOffset idxGenReg)

/-- Loop of `ArgDestination::CopyHFAStructToRegister` (TARGET_ARM64),
with the HFA field size fixed.  Each iteration stores 16 bytes at the
destination cursor: first 8 bytes are the field value (a 4-byte field is
zero-extended to 8 bytes), the next 8 bytes are the second half of a
16-byte vector field and zero otherwise; the destination advances by 16
and the source by the field size. -/
def copyHFALoop (hfaFieldSize : Nat) : Nat → Mem → Nat → Nat → Mem → Mem
  | 0, _, _, _, mem => mem
  | n + 1, src, srcPos, dest, mem =>
      let m1 :=
        if hfaFieldSize = 4 then
          storeConst (copyBytes mem dest src srcPos 4) (dest + 4) 4 0
        else
          copyBytes mem dest src srcPos 8
      let m2 :=
        if hfaFieldSize = 16 then
          copyBytes m1 (dest + 8) src (srcPos + 8) 8
        else
          storeConst m1 (dest + 8) 8 0
      copyHFALoop hfaFieldSize n src (srcPos + hfaFieldSize) (dest + 16) m2

/-- `ArgDestination::CopyHFAStructToRegister`: `floatRegCount` fields of
`hfaFieldSize` bytes each, scattered from `src` to 16-byte slots starting
at the destination address `dest` (which the source computes as
`GetDestinationAddress()`). -/
def copyHFAStructToRegister (floatRegCount hfaFieldSize : Nat) (src : Mem)
    (dest : Nat) (mem : Mem) : Mem :=
  copyHFALoop hfaFieldSize floatRegCount src 0 dest mem

/-- The shape flag of `FpStruct::Flags` (the four mutually exclusive
position flags; the size-shift fields are modelled as separate structure
members below). -/
inductive FpStructFlags where
  | OnlyOne
  | BothFloat
  | FloatInt
  | IntFloat
deriving DecidableEq, Repr

/-- `FpStructInRegistersInfo`: shape flag, byte offsets of the two
sub-fields, and their size shifts (`SizeShift1st`, `SizeShift2nd`; the
byte size of a sub-field is `2 ^ shift`). -/
structure FpStructInRegistersInfo where
  flags : FpStructFlags
  offset1st : Nat
  offset2nd : Nat
  sizeShift1st : Nat
  sizeShift2nd : Nat
deriving DecidableEq, Repr

/-- `FpStructInRegistersInfo::Size2nd()`. -/
def FpStructInRegistersInfo.Size2nd (info : FpStructInRegistersInfo) : Nat :=
  2 ^ info.sizeShift2nd

/-- One floating-register store of the RISCV64 split path:
`*floatReg = (sizeShift == 3) ? *(INT64*)field : NanBox | *(INT32*)field`
with `NanBox = 0xffffffff00000000`.  Byte-level (little-endian): a size
shift of 3 copies 8 source bytes; otherwise the low 4 bytes are the
source bytes and the high 4 bytes are `0xff` each (the OR with the
NaN-box mask makes them `0xff` regardless of the sign extension of the
32-bit read). -/
def storeFloatFieldRiscv (mem : Mem) (dst : Nat) (src : Mem) (pos shift : Nat) : Mem :=
  if shift = 3 then copyBytes mem dst src pos 8
  else storeConst (copyBytes mem dst src pos 4) (dst + 4) 4 0xff

/-- `ArgDestination::CopyStructToRegisters` (TARGET_RISCV64 split
hardware-floating path, release semantics; the LOONGARCH64 variant
differs only in `NanBox = 0`).  `floatRegsOffset`/`argRegsOffset` stand
for `TransitionBlock::GetOffsetOfFloatArgumentRegisters()` and
`GetOffsetOfArgumentRegisters()`; `FLOAT_REGISTER_SIZE = 8` and
`TARGET_POINTER_SIZE = 8`.  The first floating sub-field is stored for
shapes OnlyOne/BothFloat/FloatInt (advancing the floating register
pointer by 8), the second for BothFloat/IntFloat, and the integer
sub-field for FloatInt/IntFloat at its exact width `2 ^ shift` (a shift
above 3 hits `_ASSERTE(false)` and stores nothing). -/
def copyStructToRegistersFp (info : FpStructInRegistersInfo)
    (base floatRegsOffset argRegsOffset idxFloatReg idxGenReg : Nat)
    (src mem : Mem) : Mem :=
  let floatReg := base + floatRegsOffset + idxFloatReg * 8
  let firstFloat := info.flags = .OnlyOne ∨ info.flags = .BothFloat ∨ info.flags = .FloatInt
  let mem1 :=
    if firstFloat then
      storeFloatFieldRiscv mem floatReg src info.offset1st info.sizeShift1st
    else mem
  let floatReg2 := if firstFloat then floatReg + 8 else floatReg
  let mem2 :=
    if info.flags = .BothFloat ∨ info.flags = .IntFloat then
      storeFloatFieldRiscv mem1 floatReg2 src info.offset2nd info.sizeShift2nd
    else mem1
  if info.flags = .FloatInt ∨ info.flags = .IntFloat then
    let intReg := base + argRegsOffset + idxGenReg * 8
    let off := if info.flags = .IntFloat then info.offset1st else info.offset2nd
    let shift := if info.flags = .IntFloat then info.sizeShift1st else info.sizeShift2nd
    if shift ≤ 3 then copyBytes mem2 intReg src off (2 ^ shift) else mem2
  else mem2

/-- The leading assertion block of the RISCV64/LOONGARCH64
`CopyStructToRegisters`: `destOffset == 0`, `fieldBytes <= 16`,
`m_cFloatReg` and `m_cGenReg` consistent with the shape flag, and
`info.offset2nd + info.Size2nd() <= fieldBytes`. -/
def fpCopyAssertsOk (info : FpStructInRegistersInfo)
    (cFloatReg cGenReg destOffset fieldBytes : Nat) : Bool :=
  destOffset == 0 && fieldBytes ≤ 16 &&
  cFloatReg == (if info.flags = .BothFloat then 2 else 1) &&
  cGenReg == (if info.flags = .FloatInt ∨ info.flags = .IntFloat then 1 else 0) &&
  info.offset2nd + info.Size2nd ≤ fieldBytes

/-- `ArgDestination::CopySingleFloatToRegister` (TARGET_RISCV64).
`isFloatRegOffset` is the value of
`TransitionBlock::IsFloatArgumentRegisterOffset(m_offset)` (the
transition block is external to this file).  A floating destination
receives the 8-byte NaN-boxed value `0xffffffff00000000 | value` — low 4
bytes from the source, high 4 bytes `0xff` each; any other destination
receives only the raw 4 source bytes. -/
def copySingleFloatToRegister (isFloatRegOffset : Bool) (base offset : Nat)
    (src mem : Mem) : Mem :=
  let dest := base + offset
  if isFloatRegOffset then
    storeConst (copyBytes mem dest src 0 4) (dest + 4) 4 0xff
  else
    copyBytes mem dest src 0 4

/-- Modelled from the spec: the architecture constant
`CLR_SYSTEMV_MAX_EIGHTBYTES_COUNT_TO_PASS_IN_REGISTERS` sizing the
stack zero buffer of `ZeroStructInRegisters` is defined outside this
repository; the SysV convention passes at most two eightbytes of a
composite in registers. -/
def CLR_SYSTEMV_MAX_EIGHTBYTES_COUNT_TO_PASS_IN_REGISTERS : Nat := 2

/-- The stack buffer `long long zeros[CLR_SYSTEMV_MAX_...] = {}` of
`ZeroStructInRegisters`: zero on its `8 * count` valid bytes,
unspecified (`junk`) beyond its end. -/
def zeroBuffer (junk : Mem) : Mem :=
  fun a =>
    if a < 8 * CLR_SYSTEMV_MAX_EIGHTBYTES_COUNT_TO_PASS_IN_REGISTERS then 0 else junk a

/-- `ArgDestination::ZeroStructInRegisters` (UNIX_AMD64_ABI): copies the
stack zero buffer through `CopyStructToRegisters` with destination
offset 0. -/
def zeroStructInRegisters (junk : Mem) (units : EightByteLayout) (mem : Mem)
    (base argRegsOffset floatRegsOffset : Nat) (idxGenReg idxFloatReg : Nat) : Mem :=
  copyStructToRegisters units (zeroBuffer junk) mem base argRegsOffset floatRegsOffset
    idxGenReg idxFloatReg 0

/-- The assertion of `ZeroStructInRegisters`:
`sizeof(zeros) >= (size_t)fieldBytes`. -/
def zeroAssertOk (fieldBytes : Nat) : Bool :=
  fieldBytes ≤ 8 * CLR_SYSTEMV_MAX_EIGHTBYTES_COUNT_TO_PASS_IN_REGISTERS

/-- The build-target architecture families distinguished by the
preprocessor conditionals of the `ArgDestination` constructor. -/
inductive Arch where
  | unixAmd64
  | arm64
  | loongarch64
  | riscv64
  | other
deriving DecidableEq, Repr

/-- The `_ASSERTE` of the `ArgDestination` constructor, per architecture:
on UNIX_AMD64_ABI, `(argLocDescForStructInRegs != NULL) || (offset !=
TransitionBlock::StructInRegsOffset)`; on ARM64/LOONGARCH64/RISCV64 no
constraint; on every other architecture the descriptor must be null.
`hasLayout` models `m_argLocDescForStructInRegs != NULL`, `sentinel`
models `TransitionBlock::StructInRegsOffset`. -/
def argDestinationCtorAssert (arch : Arch) (hasLayout : Bool)
    (offset sentinel : Int) : Bool :=
  match arch with
  | .unixAmd64 => hasLayout || offset != sentinel
  | .arm64 => true
  | .loongarch64 => true
  | .riscv64 => true
  | .other => !hasLayout

/-- `ArgDestination::IsStructPassedInRegs` (UNIX_AMD64_ABI):
`m_offset == TransitionBlock::StructInRegsOffset`. -/
def isStructPassedInRegsAmd64 (offset sentinel : Int) : Bool :=
  offset == sentinel

/-! ## Root reporting (C1, C9) -/

theorem reportLoop_visited (units : EightByteLayout) (g : Nat) :
    (reportLoop units g).2 = totalSize units := by
  induction units generalizing g with
  | nil => rfl
  | cons u rest ih =>
      by_cases h : u.classification = .SSE <;>
        by_cases hr : isRefClass u.classification = true <;>
          simp [reportLoop, totalSize, h, hr, ih, List.map_cons, List.sum_cons]

theorem reportLoop_flags (units : EightByteLayout) (g : Nat) :
    (reportLoop units g).1.map Prod.snd
      = (units.filter fun u => isRefClass u.classification).map
          (fun u => u.classification == SystemVClassificationType.IntegerByRef) := by
  induction units generalizing g with
  | nil => rfl
  | cons u rest ih =>
      cases hc : u.classification <;>
        simp [reportLoop, hc, isRefClass, ih, List.filter_cons]

theorem reportLoop_addr_le (units : EightByteLayout) (g : Nat) :
    ∀ c ∈ (reportLoop units g).1, g ≤ c.1 := by
  induction units generalizing g with
  | nil => intro c hc; simp [reportLoop] at hc
  | cons u rest ih =>
      intro c hc
      cases hcl : u.classification <;> simp [reportLoop, hcl, isRefClass] at hc
      case NoClass | Integer =>
        exact le_trans (Nat.le_add_right _ _) (ih (g + u.size) c hc)
      case SSE => exact ih g c hc
      case IntegerReference | IntegerByRef =>
        rcases hc with hc | hc
        · rw [hc]
        · exact le_trans (Nat.le_add_right _ _) (ih (g + u.size) c hc)

theorem reportLoop_chain (units : EightByteLayout) (g : Nat)
    (href : ∀ u ∈ units, isRefClass u.classification = true → u.size = 8) :
    List.Chain' (· < ·) ((reportLoop units g).1.map Prod.fst) := by
  induction units generalizing g with
  | nil => simp [reportLoop]
  | cons u rest ih =>
      have hrest : ∀ v ∈ rest, isRefClass v.classification = true → v.size = 8 :=
        fun v hv => href v (List.mem_cons_of_mem _ hv)
      cases hcl : u.classification
      case SSE => simpa [reportLoop, hcl] using ih g hrest
      case NoClass | Integer => simpa [reportLoop, hcl, isRefClass] using ih (g + u.size) hrest
      case IntegerReference | IntegerByRef =>
        have hsz : u.size = 8 := href u (List.mem_cons_self _ _) (by rw [hcl]; rfl)
        simp only [reportLoop, hcl]
        rw [if_neg (by decide), if_pos (by decide)]
        simp only [List.singleton_append, List.map_cons]
        rw [List.chain'_cons']
        refine ⟨?_, ih (g + u.size) hrest⟩
        intro b hb
        have hmem := List.mem_of_mem_head? hb
        obtain ⟨c, hc, rfl⟩ := List.mem_map.mp hmem
        have := reportLoop_addr_le rest (g + u.size) c hc
        omega

/-- C1: for a register-resident composite layout, root reporting invokes
the promotion callback once per reference-classified eightbyte unit (and
never for the non-reference units), in strictly ascending address order,
with the interior flag set exactly for a byref unit; the bytes visited
over all units sum to the declared composite size (the final
`remainingBytes == 0` assertion); and for the 16-byte layout
{Integer, ObjectReference} the callback fires exactly once, for the
second unit, at the second general-register slot, with the interior flag
clear. -/
theorem reportPointers_exhaustive (units : EightByteLayout)
    (base argRegsOffset idxGenReg fieldBytes : Nat)
    (href : ∀ u ∈ units, isRefClass u.classification = true → u.size = 8)
    (hsum : fieldBytes = totalSize units) :
    ((reportPointersFromStructInRegisters units base argRegsOffset idxGenReg).1.length
        = (units.filter fun u => isRefClass u.classification).length)
    ∧ ((reportPointersFromStructInRegisters units base argRegsOffset idxGenReg).1.map
          Prod.snd
        = (units.filter fun u => isRefClass u.classification).map
            (fun u => u.classification == SystemVClassificationType.IntegerByRef))
    ∧ List.Chain' (· < ·)
        ((reportPointersFromStructInRegisters units base argRegsOffset idxGenReg).1.map
          Prod.fst)
    ∧ (reportPointersFromStructInRegisters units base argRegsOffset idxGenReg).2
        = fieldBytes
    ∧ (reportPointersFromStructInRegisters
          [⟨8, .Integer⟩, ⟨8, .IntegerReference⟩] base argRegsOffset idxGenReg).1
        = [(GetStructGenRegDestinationAddress base argRegsOffset idxGenReg + 8, false)] := by
  refine ⟨?_, reportLoop_flags units _, reportLoop_chain units _ href, ?_, ?_⟩
  · have h := reportLoop_flags units
      (GetStructGenRegDestinationAddress base argRegsOffset idxGenReg)
    have := congrArg List.length h
    simpa using this
  · rw [reportPointersFromStructInRegisters, reportLoop_visited, hsum]
  · rfl

/-- Witness for C1 at the Scenario B layout {Integer, ObjectReference}. -/
theorem reportPointers_exhaustive_witness :
    (∀ u ∈ ([⟨8, .Integer⟩, ⟨8, .IntegerReference⟩] : EightByteLayout),
        isRefClass u.classification = true → u.size = 8)
    ∧ (16 = totalSize [⟨8, .Integer⟩, ⟨8, .IntegerReference⟩])
    ∧ ((reportPointersFromStructInRegisters [⟨8, .Integer⟩, ⟨8, .IntegerReference⟩]
          0 0 0).1.length
        = (([⟨8, .Integer⟩, ⟨8, .IntegerReference⟩] : EightByteLayout).filter
            fun u => isRefClass u.classification).length)
    ∧ List.Chain' (· < ·)
        ((reportPointersFromStructInRegisters [⟨8, .Integer⟩, ⟨8, .IntegerReference⟩]
          0 0 0).1.map Prod.fst)
    ∧ (reportPointersFromStructInRegisters [⟨8, .Integer⟩, ⟨8, .IntegerReference⟩]
          0 0 0).2 = 16
    ∧ (reportPointersFromStructInRegisters [⟨8, .Integer⟩, ⟨8, .IntegerReference⟩]
          0 0 0).1 = [(GetStructGenRegDestinationAddress 0 0 0 + 8, false)] := by
  have h := reportPointers_exhaustive [⟨8, .Integer⟩, ⟨8, .IntegerReference⟩] 0 0 0 16
    (by decide) (by decide)
  exact ⟨by decide, by decide, h.1, h.2.2.1, h.2.2.2.1, h.2.2.2.2⟩

/-- C9: for a layout with zero eightbyte units and declared size zero,
the copy writes no destination bytes, root reporting makes no callbacks
and visits zero bytes, and the final remaining-bytes assertions hold. -/
theorem copyStruct_empty_layout (src mem : Mem)
    (base argRegsOffset floatRegsOffset idxGenReg idxFloatReg : Nat) :
    copyStructToRegisters [] src mem base argRegsOffset floatRegsOffset
        idxGenReg idxFloatReg 0 = mem
    ∧ (reportPointersFromStructInRegisters [] base argRegsOffset idxGenReg).1 = []
    ∧ (reportPointersFromStructInRegisters [] base argRegsOffset idxGenReg).2 = 0
    ∧ copyAssertsOk [] 0 0 = true :=
  ⟨rfl, rfl, rfl, rfl⟩

/-! ## The eightbyte copy path (C2, C3, C7, C10) -/

theorem copyLoop_eq_applySteps (units : EightByteLayout) (destOff : Nat) (src : Mem)
    (srcPos g f : Nat) (mem : Mem) :
    copyLoop units destOff src srcPos g f mem
      = applySteps (copyStepsLoop units destOff srcPos g f) src mem := by
  induction units generalizing destOff srcPos g f mem with
  | nil => rfl
  | cons u rest ih =>
      by_cases h : u.classification = .SSE <;>
        simp [copyLoop, copyStepsLoop, applySteps, h, ih]

theorem copyStructToRegisters_eq_applySteps (units : EightByteLayout) (src mem : Mem)
    (base argRegsOffset floatRegsOffset idxGenReg idxFloatReg destOffset : Nat) :
    copyStructToRegisters units src mem base argRegsOffset floatRegsOffset
        idxGenReg idxFloatReg destOffset
      = applySteps
          (copySteps units base argRegsOffset floatRegsOffset idxGenReg idxFloatReg
            destOffset) src mem :=
  copyLoop_eq_applySteps _ _ _ _ _ _ _

theorem applySteps_not_written (steps : List CopyStep) (src mem : Mem) (a : Nat)
    (h : inStepWrites steps a = false) : applySteps steps src mem a = mem a := by
  induction steps generalizing mem with
  | nil => rfl
  | cons s rest ih =>
      simp only [inStepWrites, List.any_cons, Bool.or_eq_false_iff] at h
      rw [applySteps, ih _ (by simpa [inStepWrites] using h.2)]
      simp only [copyBytes]
      rw [if_neg]
      intro hcond
      rcases h with ⟨h1, _⟩
      simp only [Bool.and_eq_false_iff, decide_eq_false_iff_not] at h1
      omega

theorem applySteps_zero_src (steps : List CopyStep) (mem : Mem) (a : Nat)
    (h : inStepWrites steps a = true) :
    applySteps steps (fun _ => 0) mem a = 0 := by
  induction steps generalizing mem with
  | nil => simp [inStepWrites] at h
  | cons s rest ih =>
      by_cases hr : inStepWrites rest a = true
      · rw [applySteps]; exact ih _ hr
      · have hs : s.destAddr ≤ a ∧ a < s.destAddr + s.writeBytes := by
          simp only [inStepWrites, List.any_cons, Bool.or_eq_true] at h
          rcases h with h | h
          · simpa using h
          · exact absurd h (by simpa [inStepWrites] using hr)
        rw [applySteps,
          applySteps_not_written rest _ _ a (by simpa [inStepWrites] using hr)]
        simp [copyBytes, hs]

theorem applySteps_src_congr (steps : List CopyStep) (srcA srcB mem : Mem)
    (h : ∀ s ∈ steps, ∀ j < s.writeBytes, srcA (s.srcOff + j) = srcB (s.srcOff + j)) :
    applySteps steps srcA mem = applySteps steps srcB mem := by
  induction steps generalizing mem with
  | nil => rfl
  | cons s rest ih =>
      have hhead : copyBytes mem s.destAddr srcA s.srcOff s.writeBytes
          = copyBytes mem s.destAddr srcB s.srcOff s.writeBytes := by
        funext a
        simp only [copyBytes]
        split
        · next hcond =>
            exact h s (List.mem_cons_self _ _) (a - s.destAddr) (by omega)
        · rfl
      rw [applySteps, applySteps, hhead]
      exact ih _ fun t ht j hj => h t (List.mem_cons_of_mem _ ht) j hj

theorem copyStepsLoop_src_bound (units : EightByteLayout) (r : Int) (srcPos g f : Nat)
    (h : copyAssertsLoop units 0 r = true) :
    ∀ s ∈ copyStepsLoop units 0 srcPos g f,
      (s.srcOff : Int) + s.writeBytes ≤ srcPos + r := by
  induction units generalizing r srcPos g f with
  | nil => intro s hs; simp [copyStepsLoop] at hs
  | cons u rest ih =>
      intro s hs
      simp only [copyAssertsLoop, Bool.and_eq_true, decide_eq_true_eq] at h
      obtain ⟨⟨hrem, hcls⟩, hrest⟩ := h
      simp only [Nat.zero_mod, Nat.cast_zero, sub_zero] at hrem hcls hrest
      by_cases hS : u.classification = .SSE
      · rw [copyStepsLoop] at hs
        simp only [Nat.zero_mod, Nat.sub_zero, if_pos hS, List.mem_cons] at hs
        rcases hs with rfl | hs
        · simp only [if_pos hS, Bool.or_eq_true, beq_iff_eq] at hcls
          rcases hcls with h8 | h4
          · have : u.size = 8 := by exact_mod_cast h8
            simp [this] at hrem ⊢
            omega
          · have : u.size = 4 := by exact_mod_cast h4
            simp [this] at hrem ⊢
            omega
        · have := ih (r - u.size) (srcPos + u.size) g (f + 16) hrest s hs
          push_cast at this ⊢
          omega
      · rw [copyStepsLoop] at hs
        simp only [Nat.zero_mod, Nat.sub_zero, if_neg hS, List.mem_cons] at hs
        rcases hs with rfl | hs
        · simp only
          omega
        · have := ih (r - u.size) (srcPos + u.size) (g + u.size) f hrest s hs
          push_cast at this ⊢
          omega

/-- C10: `ZeroStructInRegisters` requires the composite size to fit the
stack zero buffer of `8 * CLR_SYSTEMV_MAX_EIGHTBYTES_COUNT_TO_PASS_IN_REGISTERS`
bytes; it always invokes `CopyStructToRegisters` with destination offset
0, and under the copy-path assertions every source read of that
invocation stays within the first `fieldBytes ≤ sizeof(zeros)` bytes of
the buffer. -/
theorem zeroStruct_buffer_safe (junk : Mem) (units : EightByteLayout) (mem : Mem)
    (base argRegsOffset floatRegsOffset idxGenReg idxFloatReg fieldBytes : Nat)
    (hz : zeroAssertOk fieldBytes = true)
    (hc : copyAssertsOk units fieldBytes 0 = true) :
    zeroStructInRegisters junk units mem base argRegsOffset floatRegsOffset
        idxGenReg idxFloatReg
      = copyStructToRegisters units (zeroBuffer junk) mem base argRegsOffset
          floatRegsOffset idxGenReg idxFloatReg 0
    ∧ ∀ s ∈ copySteps units base argRegsOffset floatRegsOffset idxGenReg idxFloatReg 0,
        s.srcOff + s.writeBytes
          ≤ 8 * CLR_SYSTEMV_MAX_EIGHTBYTES_COUNT_TO_PASS_IN_REGISTERS := by
  refine ⟨rfl, ?_⟩
  intro s hs
  rw [copySteps, Nat.zero_div, List.drop_zero] at hs
  rw [copyAssertsOk, Nat.zero_div, List.drop_zero] at hc
  have hfb : fieldBytes ≤ 8 * CLR_SYSTEMV_MAX_EIGHTBYTES_COUNT_TO_PASS_IN_REGISTERS := by
    simpa [zeroAssertOk] using hz
  have := copyStepsLoop_src_bound units (fieldBytes : Int) 0 _ _ hc s hs
  omega

/-- Witness for C10 at a two-unit {Integer, SSE} layout of size 16. -/
theorem zeroStruct_buffer_safe_witness :
    zeroAssertOk 16 = true
    ∧ copyAssertsOk [⟨8, .Integer⟩, ⟨8, .SSE⟩] 16 0 = true
    ∧ (zeroStructInRegisters (fun _ => 9) [⟨8, .Integer⟩, ⟨8, .SSE⟩] (fun _ => 7)
          0 0 100 0 0
        = copyStructToRegisters [⟨8, .Integer⟩, ⟨8, .SSE⟩]
            (zeroBuffer fun _ => 9) (fun _ => 7) 0 0 100 0 0 0)
    ∧ ∀ s ∈ copySteps [⟨8, .Integer⟩, ⟨8, .SSE⟩] 0 0 100 0 0 0,
        s.srcOff + s.writeBytes
          ≤ 8 * CLR_SYSTEMV_MAX_EIGHTBYTES_COUNT_TO_PASS_IN_REGISTERS := by
  have h := zeroStruct_buffer_safe (fun _ => 9) [⟨8, .Integer⟩, ⟨8, .SSE⟩] (fun _ => 7)
    0 0 100 0 0 16 (by decide) (by decide)
  exact ⟨by decide, by decide, h.1, h.2⟩

/-- C7: zero-fill scatters the all-zero stack buffer through the same
path as the struct copy (with destination offset 0), and every
destination byte the scatter writes — every sub-field byte of the
composite in its registers — reads back as zero; moreover a copy from an
all-zero source zeroes every written destination byte for an arbitrary
destination offset. -/
theorem zeroStruct_zeroes_subfields (junk : Mem) (units : EightByteLayout) (mem : Mem)
    (base argRegsOffset floatRegsOffset idxGenReg idxFloatReg fieldBytes : Nat)
    (hz : zeroAssertOk fieldBytes = true)
    (hc : copyAssertsOk units fieldBytes 0 = true) :
    (∀ a, inStepWrites
          (copySteps units base argRegsOffset floatRegsOffset idxGenReg idxFloatReg 0)
          a = true →
        zeroStructInRegisters junk units mem base argRegsOffset floatRegsOffset
          idxGenReg idxFloatReg a = 0)
    ∧ ∀ destOffset a,
        inStepWrites
          (copySteps units base argRegsOffset floatRegsOffset idxGenReg idxFloatReg
            destOffset) a = true →
        copyStructToRegisters units (fun _ => 0) mem base argRegsOffset floatRegsOffset
          idxGenReg idxFloatReg destOffset a = 0 := by
  constructor
  · intro a ha
    have hbound := zeroStruct_buffer_safe junk units mem base argRegsOffset
      floatRegsOffset idxGenReg idxFloatReg fieldBytes hz hc
    rw [zeroStructInRegisters, copyStructToRegisters_eq_applySteps,
      applySteps_src_congr _ (zeroBuffer junk) (fun _ => 0) mem ?hagree]
    · exact applySteps_zero_src _ mem a ha
    · intro s hs j hj
      have := hbound.2 s hs
      simp only [zeroBuffer]
      rw [if_pos (by omega)]
  · intro destOffset a ha
    rw [copyStructToRegisters_eq_applySteps]
    exact applySteps_zero_src _ mem a ha

/-- Witness for C7 at a two-unit {Integer, SSE} layout of size 16. -/
theorem zeroStruct_zeroes_subfields_witness :
    zeroAssertOk 16 = true
    ∧ copyAssertsOk [⟨8, .Integer⟩, ⟨8, .SSE⟩] 16 0 = true
    ∧ (∀ a, inStepWrites (copySteps [⟨8, .Integer⟩, ⟨8, .SSE⟩] 0 0 100 0 0 0) a = true →
        zeroStructInRegisters (fun _ => 9) [⟨8, .Integer⟩, ⟨8, .SSE⟩] (fun _ => 7)
          0 0 100 0 0 a = 0)
    ∧ ∀ destOffset a,
        inStepWrites (copySteps [⟨8, .Integer⟩, ⟨8, .SSE⟩] 0 0 100 0 0 destOffset)
          a = true →
        copyStructToRegisters [⟨8, .Integer⟩, ⟨8, .SSE⟩] (fun _ => 0) (fun _ => 7)
          0 0 100 0 0 destOffset a = 0 := by
  have h := zeroStruct_zeroes_subfields (fun _ => 9) [⟨8, .Integer⟩, ⟨8, .SSE⟩]
    (fun _ => 7) 0 0 100 0 0 16 (by decide) (by decide)
  exact ⟨by decide, by decide, h.1, h.2⟩

/-- Written from the spec's description of the eightbyte scatter path,
for comparison with the store trace of the code: walk the ordered units;
for a floating unit copy 4 or 8 bytes (8 exactly when the unit's size is
8) into the next floating slot, the floating cursor striding 16 bytes;
for any other unit copy the unit's bytes into the next integer slot,
packed (the integer cursor advancing by the unit's size); the source
cursor advances by the unit's size either way. -/
def specEightbyteSteps (units : EightByteLayout) (srcPos g f : Nat) : List CopyStep :=
  match units with
  | [] => []
  | u :: rest =>
      if u.classification = .SSE then
        ⟨true, f, srcPos, if u.size = 8 then 8 else 4⟩ ::
          specEightbyteSteps rest (srcPos + u.size) g (f + 16)
      else
        ⟨false, g, srcPos, u.size⟩ :: specEightbyteSteps rest (srcPos + u.size) (g + u.size) f

theorem copyStepsLoop_zero_off (units : EightByteLayout) (srcPos g f : Nat) :
    copyStepsLoop units 0 srcPos g f = specEightbyteSteps units srcPos g f := by
  induction units generalizing srcPos g f with
  | nil => rfl
  | cons u rest ih =>
      by_cases h : u.classification = .SSE <;>
        simp [copyStepsLoop, specEightbyteSteps, h, ih]

theorem copyStepsLoop_write_sum (units : EightByteLayout) (r : Int) (srcPos g f : Nat)
    (h : copyAssertsLoop units 0 r = true) :
    (((copyStepsLoop units 0 srcPos g f).map CopyStep.writeBytes).sum : Int) = r := by
  induction units generalizing r srcPos g f with
  | nil =>
      simp only [copyAssertsLoop, beq_iff_eq] at h
      simp [copyStepsLoop, h]
  | cons u rest ih =>
      simp only [copyAssertsLoop, Bool.and_eq_true, decide_eq_true_eq] at h
      obtain ⟨⟨hrem, hcls⟩, hrest⟩ := h
      simp only [Nat.zero_mod, Nat.cast_zero, sub_zero] at hrem hcls hrest
      by_cases hS : u.classification = .SSE
      · simp only [copyStepsLoop, Nat.zero_mod, Nat.sub_zero, if_pos hS, List.map_cons,
          List.sum_cons]
        have hsz : u.size = 8 ∨ u.size = 4 := by
          rw [if_pos hS] at hcls
          simp only [Bool.or_eq_true, beq_iff_eq] at hcls
          rcases hcls with h8 | h4
          · exact Or.inl (by exact_mod_cast h8)
          · exact Or.inr (by exact_mod_cast h4)
        have hih := ih (r - u.size) (srcPos + u.size) g (f + 16) hrest
        rcases hsz with h8 | h4
        · rw [h8] at hih ⊢
          push_cast at hih ⊢
          omega
        · rw [h4] at hih ⊢
          push_cast at hih ⊢
          omega
      · simp only [copyStepsLoop, Nat.zero_mod, Nat.sub_zero, if_neg hS, List.map_cons,
          List.sum_cons]
        have hih := ih (r - u.size) (srcPos + u.size) (g + u.size) f hrest
        push_cast at hih ⊢
        omega

/-- C2: with destination offset 0, the store trace of
`CopyStructToRegisters` is exactly the spec's eightbyte walk — per unit,
4 or 8 bytes into the next 16-byte-strided floating slot when the unit
is floating-classified, the unit's bytes into the next packed integer
slot otherwise, the source cursor advancing by the unit's size — the
resulting memory is that trace replayed, and under the debug assertions
the total bytes copied equal the declared composite size. -/
theorem copyStruct_eightbyte_path (units : EightByteLayout) (src mem : Mem)
    (base argRegsOffset floatRegsOffset idxGenReg idxFloatReg fieldBytes : Nat)
    (h : copyAssertsOk units fieldBytes 0 = true) :
    copySteps units base argRegsOffset floatRegsOffset idxGenReg idxFloatReg 0
        = specEightbyteSteps units 0
            (GetStructGenRegDestinationAddress base argRegsOffset idxGenReg)
            (GetStructFloatRegDestinationAddress base floatRegsOffset idxFloatReg)
    ∧ copyStructToRegisters units src mem base argRegsOffset floatRegsOffset
          idxGenReg idxFloatReg 0
        = applySteps
            (specEightbyteSteps units 0
              (GetStructGenRegDestinationAddress base argRegsOffset idxGenReg)
              (GetStructFloatRegDestinationAddress base floatRegsOffset idxFloatReg))
            src mem
    ∧ ((specEightbyteSteps units 0
          (GetStructGenRegDestinationAddress base argRegsOffset idxGenReg)
          (GetStructFloatRegDestinationAddress base floatRegsOffset idxFloatReg)).map
            CopyStep.writeBytes).sum = fieldBytes := by
  have hsteps : copySteps units base argRegsOffset floatRegsOffset idxGenReg
      idxFloatReg 0
      = specEightbyteSteps units 0
          (GetStructGenRegDestinationAddress base argRegsOffset idxGenReg)
          (GetStructFloatRegDestinationAddress base floatRegsOffset idxFloatReg) := by
    rw [copySteps, Nat.zero_div, List.drop_zero, Nat.add_zero, copyStepsLoop_zero_off]
  refine ⟨hsteps, ?_, ?_⟩
  · rw [copyStructToRegisters_eq_applySteps, hsteps]
  · rw [copyAssertsOk, Nat.zero_div, List.drop_zero] at h
    have := copyStepsLoop_write_sum units (fieldBytes : Int) 0
      (GetStructGenRegDestinationAddress base argRegsOffset idxGenReg)
      (GetStructFloatRegDestinationAddress base floatRegsOffset idxFloatReg) h
    rw [copyStepsLoop_zero_off] at this
    exact_mod_cast this

/-- Witness for C2 at a two-unit {Integer, SSE} layout of size 16. -/
theorem copyStruct_eightbyte_path_witness :
    copyAssertsOk [⟨8, .Integer⟩, ⟨8, .SSE⟩] 16 0 = true
    ∧ copySteps [⟨8, .Integer⟩, ⟨8, .SSE⟩] 0 0 100 0 0 0
        = specEightbyteSteps [⟨8, .Integer⟩, ⟨8, .SSE⟩] 0
            (GetStructGenRegDestinationAddress 0 0 0)
            (GetStructFloatRegDestinationAddress 0 100 0)
    ∧ copyStructToRegisters [⟨8, .Integer⟩, ⟨8, .SSE⟩] (fun p => p + 1) (fun _ => 7)
          0 0 100 0 0 0
        = applySteps
            (specEightbyteSteps [⟨8, .Integer⟩, ⟨8, .SSE⟩] 0
              (GetStructGenRegDestinationAddress 0 0 0)
              (GetStructFloatRegDestinationAddress 0 100 0))
            (fun p => p + 1) (fun _ => 7)
    ∧ ((specEightbyteSteps [⟨8, .Integer⟩, ⟨8, .SSE⟩] 0
          (GetStructGenRegDestinationAddress 0 0 0)
          (GetStructFloatRegDestinationAddress 0 100 0)).map
            CopyStep.writeBytes).sum = 16 := by
  have h := copyStruct_eightbyte_path [⟨8, .Integer⟩, ⟨8, .SSE⟩] (fun p => p + 1)
    (fun _ => 7) 0 0 100 0 0 16 (by decide)
  exact ⟨by decide, h.1, h.2.1, h.2.2⟩

/-- Reduce the size of the leading unit by `k` bytes (the partial skip a
destination offset induces on the first non-skipped eightbyte). -/
def adjustHead (units : EightByteLayout) (k : Nat) : EightByteLayout :=
  match units with
  | [] => []
  | u :: rest => ⟨u.size - k, u.classification⟩ :: rest

theorem copyLoop_adjustHead (units : EightByteLayout) (destOff : Nat) (src : Mem)
    (srcPos g f : Nat) (mem : Mem) :
    copyLoop units destOff src srcPos g f mem
      = copyLoop (adjustHead units (destOff % 8)) 0 src srcPos g f mem := by
  cases units with
  | nil => rfl
  | cons u rest =>
      by_cases h : u.classification = .SSE <;>
        simp [copyLoop, adjustHead, h]

theorem copyLoop_preserves_low (units : EightByteLayout) (destOff : Nat) (src : Mem)
    (srcPos g f : Nat) (mem : Mem) (a : Nat) (hg : a < g)
    (hf : a < f ∨ f + 16 * units.length ≤ a) :
    copyLoop units destOff src srcPos g f mem a = mem a := by
  induction units generalizing destOff srcPos g f mem with
  | nil => rfl
  | cons u rest ih =>
      by_cases hS : u.classification = .SSE
      · rw [copyLoop]
        simp only [if_pos hS]
        rw [ih 0 _ g (f + 16) _ hg ?hf2]
        case hf2 =>
          rcases hf with hf | hf
          · exact Or.inl (by omega)
          · exact Or.inr (by simp only [List.length_cons] at hf; omega)
        simp only [copyBytes]
        rw [if_neg]
        rcases hf with hf | hf
        · omega
        · simp only [List.length_cons] at hf
          intro hcond
          have : (if u.size - destOff % 8 = 8 then 8 else 4) ≤ 8 := by
            split <;> omega
          omega
      · rw [copyLoop]
        simp only [if_neg hS]
        rw [ih 0 _ (g + (u.size - destOff % 8)) f _ (by omega) ?hf2]
        case hf2 =>
          rcases hf with hf | hf
          · exact Or.inl hf
          · exact Or.inr (by simp only [List.length_cons] at hf; omega)
        simp only [copyBytes]
        rw [if_neg]
        omega

/-- C3: a nonzero destination offset makes the copy start at the first
eightbyte the offset did not skip completely (`destOffset / 8` whole
units dropped), with the leading unit's size reduced by the remaining
`destOffset % 8` bytes and the general-register destination advanced by
the full offset; and every general-register destination byte below the
offset position — any address below the offset destination that is not a
floating-register slot of the layout — is left byte-for-byte unchanged. -/
theorem copyStruct_destOffset_skips_and_preserves (units : EightByteLayout)
    (src mem : Mem)
    (base argRegsOffset floatRegsOffset idxGenReg idxFloatReg destOffset : Nat) :
    copyStructToRegisters units src mem base argRegsOffset floatRegsOffset
        idxGenReg idxFloatReg destOffset
      = copyLoop (adjustHead (units.drop (destOffset / 8)) (destOffset % 8)) 0 src 0
          (GetStructGenRegDestinationAddress base argRegsOffset idxGenReg + destOffset)
          (GetStructFloatRegDestinationAddress base floatRegsOffset idxFloatReg) mem
    ∧ ∀ a,
        a < GetStructGenRegDestinationAddress base argRegsOffset idxGenReg + destOffset →
        (a < GetStructFloatRegDestinationAddress base floatRegsOffset idxFloatReg ∨
          GetStructFloatRegDestinationAddress base floatRegsOffset idxFloatReg +
            16 * units.length ≤ a) →
        copyStructToRegisters units src mem base argRegsOffset floatRegsOffset
          idxGenReg idxFloatReg destOffset a = mem a := by
  constructor
  · rw [copyStructToRegisters, copyLoop_adjustHead]
  · intro a hg hf
    rw [copyStructToRegisters]
    refine copyLoop_preserves_low _ _ _ _ _ _ _ _ hg ?_
    rcases hf with hf | hf
    · exact Or.inl hf
    · refine Or.inr (le_trans ?_ hf)
      have := List.length_drop (destOffset / 8) units
      omega

/-- Witness for C3: offset 12 into an {Integer, Integer} layout leaves
the byte below the offset untouched. -/
theorem copyStruct_destOffset_witness :
    (5 < GetStructGenRegDestinationAddress 0 0 0 + 12)
    ∧ (5 < GetStructFloatRegDestinationAddress 0 1000 0)
    ∧ copyStructToRegisters [⟨8, .Integer⟩, ⟨8, .Integer⟩] (fun p => p + 1)
        (fun a => a + 3) 0 0 1000 0 0 12 5 = 8 := by
  have h := (copyStruct_destOffset_skips_and_preserves [⟨8, .Integer⟩, ⟨8, .Integer⟩]
    (fun p => p + 1) (fun a => a + 3) 0 0 1000 0 0 12).2 5 (by decide)
    (Or.inl (by decide))
  exact ⟨by decide, by decide, h⟩

/-! ## Pointwise evaluation helpers -/

theorem copyBytes_out (m : Mem) (dst : Nat) (src : Mem) (pos n a : Nat)
    (h : a < dst ∨ dst + n ≤ a) : copyBytes m dst src pos n a = m a := by
  simp only [copyBytes]
  rw [if_neg]
  omega

theorem copyBytes_in (m : Mem) (dst : Nat) (src : Mem) (pos n a : Nat)
    (h1 : dst ≤ a) (h2 : a < dst + n) :
    copyBytes m dst src pos n a = src (pos + (a - dst)) := by
  simp only [copyBytes]
  rw [if_pos ⟨h1, h2⟩]

theorem storeConst_out (m : Mem) (dst n v a : Nat)
    (h : a < dst ∨ dst + n ≤ a) : storeConst m dst n v a = m a := by
  simp only [storeConst]
  rw [if_neg]
  omega

theorem storeConst_in (m : Mem) (dst n v a : Nat)
    (h1 : dst ≤ a) (h2 : a < dst + n) : storeConst m dst n v a = v := by
  simp only [storeConst]
  rw [if_pos ⟨h1, h2⟩]

/-! ## The HFA path (C4) -/

theorem copyHFALoop_preserves_low (size n : Nat) (src : Mem) (srcPos dest : Nat)
    (mem : Mem) (a : Nat) (ha : a < dest) :
    copyHFALoop size n src srcPos dest mem a = mem a := by
  induction n generalizing srcPos dest mem with
  | zero => rfl
  | succ k ih =>
      rw [copyHFALoop]
      rw [ih (srcPos + size) (dest + 16) _ (by omega)]
      split
      · rw [copyBytes_out _ _ _ _ _ _ (Or.inl (by omega))]
        split
        · rw [storeConst_out _ _ _ _ _ (Or.inl (by omega)),
            copyBytes_out _ _ _ _ _ _ (Or.inl (by omega))]
        · rw [copyBytes_out _ _ _ _ _ _ (Or.inl (by omega))]
      · rw [storeConst_out _ _ _ _ _ (Or.inl (by omega))]
        split
        · rw [storeConst_out _ _ _ _ _ (Or.inl (by omega)),
            copyBytes_out _ _ _ _ _ _ (Or.inl (by omega))]
        · rw [copyBytes_out _ _ _ _ _ _ (Or.inl (by omega))]

theorem copyHFALoop_slot (size n : Nat) (src : Mem) (srcPos dest : Nat) (mem : Mem)
    (hsize : size = 4 ∨ size = 8 ∨ size = 16) (i j : Nat) (hi : i < n) (hj : j < 16) :
    copyHFALoop size n src srcPos dest mem (dest + 16 * i + j)
      = if j < size then src (srcPos + size * i + j) else 0 := by
  induction n generalizing srcPos dest mem i with
  | zero => omega
  | succ k ih =>
      rw [copyHFALoop]
      cases i with
      | zero =>
          rw [copyHFALoop_preserves_low size k src _ _ _ _ (by omega)]
          simp only [Nat.mul_zero, Nat.add_zero]
          rcases hsize with h | h | h <;> subst h
          · rw [if_neg (by decide), if_pos rfl]
            by_cases hj4 : j < 4
            · rw [storeConst_out _ _ _ _ _ (Or.inl (by omega)),
                storeConst_out _ _ _ _ _ (Or.inl (by omega)),
                copyBytes_in _ _ _ _ _ _ (by omega) (by omega), if_pos hj4]
              congr 1
              omega
            · by_cases hj8 : j < 8
              · rw [storeConst_out _ _ _ _ _ (Or.inl (by omega)),
                  storeConst_in _ _ _ _ _ (by omega) (by omega), if_neg hj4]
              · rw [storeConst_in _ _ _ _ _ (by omega) (by omega), if_neg hj4]
          · rw [if_neg (by decide), if_neg (by decide)]
            by_cases hj8 : j < 8
            · rw [storeConst_out _ _ _ _ _ (Or.inl (by omega)),
                copyBytes_in _ _ _ _ _ _ (by omega) (by omega), if_pos hj8]
              congr 1
              omega
            · rw [storeConst_in _ _ _ _ _ (by omega) (by omega), if_neg hj8]
          · rw [if_pos rfl, if_neg (by decide), if_pos hj]
            by_cases hj8 : j < 8
            · rw [copyBytes_out _ _ _ _ _ _ (Or.inl (by omega)),
                copyBytes_in _ _ _ _ _ _ (by omega) (by omega)]
              congr 1
              omega
            · rw [copyBytes_in _ _ _ _ _ _ (by omega) (by omega)]
              congr 1
              omega
      | succ m =>
          have haddr : dest + 16 * (m + 1) + j = (dest + 16) + 16 * m + j := by ring
          rw [haddr, ih (srcPos + size) (dest + 16) _ m (by omega)]
          have hsrc : srcPos + size + size * m + j = srcPos + size * (m + 1) + j := by ring
          rw [hsrc]

/-- C4 counterexample: for the 16-byte (vector) field width the copy does
NOT zero-fill the upper half of the floating slot — it copies the second
8 source bytes there.  With every source byte 171, the slot byte at
offset 8 reads 171, not 0. -/
theorem copyHFA_upper_half_cex :
    ¬ ∀ j, j < 8 →
        copyHFAStructToRegister 1 16 (fun _ => 171) 0 (fun _ => 7) (8 + j) = 0 := by
  intro h
  have h0 := h 0 (by decide)
  have : copyHFAStructToRegister 1 16 (fun _ => 171) 0 (fun _ => 7) (8 + 0) = 171 := by
    decide
  omega

/-- C4 amended: each HFA field lands in its own 16-byte floating slot;
the upper half of the slot is zero-filled except for the 16-byte
(vector) field width, for which it receives the field's second 8 bytes
(and a 4-byte field also zero-fills bytes 4..7 of the lower half); the
source cursor advances by the field width per field. -/
theorem copyHFA_slot_layout (count size : Nat) (src : Mem) (dest : Nat) (mem : Mem)
    (hsize : size = 4 ∨ size = 8 ∨ size = 16) (i j : Nat) (hi : i < count)
    (hj : j < 16) :
    copyHFAStructToRegister count size src dest mem (dest + 16 * i + j)
      = if j < size then src (size * i + j) else 0 := by
  have h := copyHFALoop_slot size count src 0 dest mem hsize i j hi hj
  simpa [copyHFAStructToRegister] using h

/-- Witness for the amended C4: one 8-byte field; slot byte 10 (upper
half) is zero, slot byte 2 is the source byte. -/
theorem copyHFA_slot_layout_witness :
    ((8 : Nat) = 4 ∨ (8 : Nat) = 8 ∨ (8 : Nat) = 16) ∧ (0 : Nat) < 1 ∧ (10 : Nat) < 16
    ∧ copyHFAStructToRegister 1 8 (fun p => p + 1) 0 (fun _ => 7) (0 + 16 * 0 + 10) = 0
    ∧ copyHFAStructToRegister 1 8 (fun p => p + 1) 0 (fun _ => 7) (0 + 16 * 0 + 2) = 3 := by
  refine ⟨by decide, by decide, by decide, ?_, ?_⟩
  · have h := copyHFA_slot_layout 1 8 (fun p => p + 1) 0 (fun _ => 7) (by decide) 0 10
      (by decide) (by decide)
    simpa using h
  · have h := copyHFA_slot_layout 1 8 (fun p => p + 1) 0 (fun _ => 7) (by decide) 0 2
      (by decide) (by decide)
    simpa using h

/-! ## The split hardware-floating path (C5, C6) -/

/-- Byte `j` of a floating-register slot after a split-path floating
store: an 8-byte field (`sizeShift = 3`) is copied directly; a 4-byte
field occupies the low 4 bytes and the NaN-box mask
`0xffffffff00000000` makes each high byte `0xff`. -/
def floatFieldByte (shift : Nat) (src : Mem) (pos j : Nat) : Nat :=
  if shift = 3 then src (pos + j) else if j < 4 then src (pos + j) else 0xff

theorem storeFloatFieldRiscv_at (mem : Mem) (dst : Nat) (src : Mem) (pos shift j : Nat)
    (hj : j < 8) :
    storeFloatFieldRiscv mem dst src pos shift (dst + j)
      = floatFieldByte shift src pos j := by
  rw [storeFloatFieldRiscv, floatFieldByte]
  split
  · rw [copyBytes_in _ _ _ _ _ _ (by omega) (by omega)]
    congr 1
    omega
  · by_cases h4 : j < 4
    · rw [storeConst_out _ _ _ _ _ (Or.inl (by omega)),
        copyBytes_in _ _ _ _ _ _ (by omega) (by omega), if_pos h4]
      congr 1
      omega
    · rw [storeConst_in _ _ _ _ _ (by omega) (by omega), if_neg h4]

theorem storeFloatFieldRiscv_out (mem : Mem) (dst : Nat) (src : Mem)
    (pos shift a : Nat) (h : a < dst ∨ dst + 8 ≤ a) :
    storeFloatFieldRiscv mem dst src pos shift a = mem a := by
  rw [storeFloatFieldRiscv]
  split
  · exact copyBytes_out _ _ _ _ _ _ h
  · rw [storeConst_out _ _ _ _ _ (by omega), copyBytes_out _ _ _ _ _ _ (by omega)]


/-- C5: the split hardware-floating copy writes each sub-field present
under the shape flag — a floating sub-field to the floating slot at the
floating-register base plus register index times the 8-byte register
stride (the second of two floats to the next slot), a 4-byte value
NaN-boxed and an 8-byte value copied directly; an integer sub-field to
the integer slot at its exact `2 ^ sizeShift` width, raw, the register
bytes beyond that width left unspecified.  In particular, for the
8-byte composite {int32 at 0, float32 at 4} under shape integer+floating
the integer field is copied raw into the integer slot and the floating
field NaN-boxed into the floating slot, and root reporting of such a
no-reference composite yields zero callbacks. -/
theorem copyStructFp_split_path (info : FpStructInRegistersInfo)
    (base floatRegsOffset argRegsOffset idxFloatReg idxGenReg : Nat) (src mem : Mem)
    (hdisj : argRegsOffset + idxGenReg * 8 + 8 ≤ floatRegsOffset + idxFloatReg * 8
      ∨ floatRegsOffset + idxFloatReg * 8 + 16 ≤ argRegsOffset + idxGenReg * 8)
    (hsh1 : info.sizeShift1st ≤ 3) (hsh2 : info.sizeShift2nd ≤ 3) :
    (info.flags = .OnlyOne → ∀ j, j < 8 →
      copyStructToRegistersFp info base floatRegsOffset argRegsOffset idxFloatReg
          idxGenReg src mem (base + floatRegsOffset + idxFloatReg * 8 + j)
        = floatFieldByte info.sizeShift1st src info.offset1st j)
    ∧ (info.flags = .BothFloat → ∀ j, j < 8 →
      copyStructToRegistersFp info base floatRegsOffset argRegsOffset idxFloatReg
          idxGenReg src mem (base + floatRegsOffset + idxFloatReg * 8 + j)
        = floatFieldByte info.sizeShift1st src info.offset1st j
      ∧ copyStructToRegistersFp info base floatRegsOffset argRegsOffset idxFloatReg
          idxGenReg src mem (base + floatRegsOffset + idxFloatReg * 8 + 8 + j)
        = floatFieldByte info.sizeShift2nd src info.offset2nd j)
    ∧ (info.flags = .FloatInt → ∀ j, j < 8 →
      copyStructToRegistersFp info base floatRegsOffset argRegsOffset idxFloatReg
          idxGenReg src mem (base + floatRegsOffset + idxFloatReg * 8 + j)
        = floatFieldByte info.sizeShift1st src info.offset1st j
      ∧ (j < 2 ^ info.sizeShift2nd →
        copyStructToRegistersFp info base floatRegsOffset argRegsOffset idxFloatReg
            idxGenReg src mem (base + argRegsOffset + idxGenReg * 8 + j)
          = src (info.offset2nd + j)))
    ∧ (info.flags = .IntFloat → ∀ j, j < 8 →
      copyStructToRegistersFp info base floatRegsOffset argRegsOffset idxFloatReg
          idxGenReg src mem (base + floatRegsOffset + idxFloatReg * 8 + j)
        = floatFieldByte info.sizeShift2nd src info.offset2nd j
      ∧ (j < 2 ^ info.sizeShift1st →
        copyStructToRegistersFp info base floatRegsOffset argRegsOffset idxFloatReg
            idxGenReg src mem (base + argRegsOffset + idxGenReg * 8 + j)
          = src (info.offset1st + j)))
    ∧ (info = ⟨.IntFloat, 0, 4, 2, 2⟩ →
      (∀ j, j < 4 →
        copyStructToRegistersFp info base floatRegsOffset argRegsOffset idxFloatReg
          idxGenReg src mem (base + floatRegsOffset + idxFloatReg * 8 + j) = src (4 + j))
      ∧ (∀ j, 4 ≤ j → j < 8 →
        copyStructToRegistersFp info base floatRegsOffset argRegsOffset idxFloatReg
          idxGenReg src mem (base + floatRegsOffset + idxFloatReg * 8 + j) = 0xff)
      ∧ (∀ j, j < 4 →
        copyStructToRegistersFp info base floatRegsOffset argRegsOffset idxFloatReg
          idxGenReg src mem (base + argRegsOffset + idxGenReg * 8 + j) = src j))
    ∧ (reportPointersFromStructInRegisters [⟨8, .Integer⟩] base argRegsOffset
        idxGenReg).1 = [] := by
  have hpow1 : 2 ^ info.sizeShift1st ≤ 8 :=
    le_trans (Nat.pow_le_pow_right (by norm_num) hsh1) (by norm_num)
  have hpow2 : 2 ^ info.sizeShift2nd ≤ 8 :=
    le_trans (Nat.pow_le_pow_right (by norm_num) hsh2) (by norm_num)
  have hIF : info.flags = .IntFloat → ∀ j, j < 8 →
      copyStructToRegistersFp info base floatRegsOffset argRegsOffset idxFloatReg
          idxGenReg src mem (base + floatRegsOffset + idxFloatReg * 8 + j)
        = floatFieldByte info.sizeShift2nd src info.offset2nd j
      ∧ (j < 2 ^ info.sizeShift1st →
        copyStructToRegistersFp info base floatRegsOffset argRegsOffset idxFloatReg
            idxGenReg src mem (base + argRegsOffset + idxGenReg * 8 + j)
          = src (info.offset1st + j)) := by
    intro hf j hj
    simp only [copyStructToRegistersFp, hf,
      eq_false (show ¬(FpStructFlags.IntFloat = FpStructFlags.OnlyOne ∨
        FpStructFlags.IntFloat = FpStructFlags.BothFloat ∨
        FpStructFlags.IntFloat = FpStructFlags.FloatInt) by decide),
      eq_true (show FpStructFlags.IntFloat = FpStructFlags.IntFloat from rfl),
      eq_false (show ¬(FpStructFlags.IntFloat = FpStructFlags.BothFloat) by decide),
      eq_false (show ¬(FpStructFlags.IntFloat = FpStructFlags.FloatInt) by decide),
      or_true, true_or, or_false, false_or, if_true, if_false]
    rw [if_pos hsh1]
    constructor
    · rw [copyBytes_out _ _ _ _ _ _
        (by rcases hdisj with h | h
            · exact Or.inr (by omega)
            · exact Or.inl (by omega))]
      exact storeFloatFieldRiscv_at _ _ _ _ _ _ hj
    · intro hjw
      rw [copyBytes_in _ _ _ _ _ _ (by omega) (by omega)]
      congr 1
      omega
  refine ⟨?_, ?_, ?_, hIF, ?_, rfl⟩
  · intro hf j hj
    simp only [copyStructToRegistersFp, hf,
      eq_true (show FpStructFlags.OnlyOne = FpStructFlags.OnlyOne from rfl),
      eq_false (show ¬(FpStructFlags.OnlyOne = FpStructFlags.BothFloat) by decide),
      eq_false (show ¬(FpStructFlags.OnlyOne = FpStructFlags.FloatInt) by decide),
      eq_false (show ¬(FpStructFlags.OnlyOne = FpStructFlags.IntFloat) by decide),
      or_true, true_or, or_false, false_or, if_true, if_false]
    exact storeFloatFieldRiscv_at _ _ _ _ _ _ hj
  · intro hf j hj
    simp only [copyStructToRegistersFp, hf,
      eq_true (show FpStructFlags.BothFloat = FpStructFlags.BothFloat from rfl),
      eq_false (show ¬(FpStructFlags.BothFloat = FpStructFlags.OnlyOne) by decide),
      eq_false (show ¬(FpStructFlags.BothFloat = FpStructFlags.FloatInt) by decide),
      eq_false (show ¬(FpStructFlags.BothFloat = FpStructFlags.IntFloat) by decide),
      or_true, true_or, or_false, false_or, if_true, if_false]
    constructor
    · rw [storeFloatFieldRiscv_out _ _ _ _ _ _ (Or.inl (by omega))]
      exact storeFloatFieldRiscv_at _ _ _ _ _ _ hj
    · exact storeFloatFieldRiscv_at _ _ _ _ _ _ hj
  · intro hf j hj
    simp only [copyStructToRegistersFp, hf,
      eq_true (show FpStructFlags.FloatInt = FpStructFlags.FloatInt from rfl),
      eq_false (show ¬(FpStructFlags.FloatInt = FpStructFlags.OnlyOne) by decide),
      eq_false (show ¬(FpStructFlags.FloatInt = FpStructFlags.BothFloat) by decide),
      eq_false (show ¬(FpStructFlags.FloatInt = FpStructFlags.IntFloat) by decide),
      or_true, true_or, or_false, false_or, if_true, if_false]
    rw [if_pos hsh2]
    constructor
    · rw [copyBytes_out _ _ _ _ _ _
        (by rcases hdisj with h | h
            · exact Or.inr (by omega)
            · exact Or.inl (by omega))]
      exact storeFloatFieldRiscv_at _ _ _ _ _ _ hj
    · intro hjw
      rw [copyBytes_in _ _ _ _ _ _ (by omega) (by omega)]
      congr 1
      omega
  · intro hinfo
    subst hinfo
    have h := hIF rfl
    refine ⟨?_, ?_, ?_⟩
    · intro j hj
      have hx := (h j (by omega)).1
      simpa [floatFieldByte, hj] using hx
    · intro j hj4 hj8
      have hx := (h j (by omega)).1
      simpa [floatFieldByte, Nat.not_lt.mpr hj4] using hx
    · intro j hj
      have hx := (h j (by omega)).2 (by simpa using hj)
      simpa using hx

/-- Witness for C5 at the Scenario A composite {int32 at 0, float32 at 4}
under shape integer+floating. -/
theorem copyStructFp_split_path_witness :
    (100 + 0 * 8 + 8 ≤ 0 + 0 * 8 ∨ 0 + 0 * 8 + 16 ≤ 100 + 0 * 8)
    ∧ (2 : Nat) ≤ 3
    ∧ copyStructToRegistersFp ⟨.IntFloat, 0, 4, 2, 2⟩ 0 0 100 0 0 (fun p => p + 1)
        (fun _ => 0) 0 = 5
    ∧ copyStructToRegistersFp ⟨.IntFloat, 0, 4, 2, 2⟩ 0 0 100 0 0 (fun p => p + 1)
        (fun _ => 0) 4 = 255
    ∧ copyStructToRegistersFp ⟨.IntFloat, 0, 4, 2, 2⟩ 0 0 100 0 0 (fun p => p + 1)
        (fun _ => 0) 100 = 1 := by
  have h := copyStructFp_split_path ⟨.IntFloat, 0, 4, 2, 2⟩ 0 0 100 0 0
    (fun p => p + 1) (fun _ => 0) (Or.inr (by decide)) (by decide) (by decide)
  obtain ⟨ha, hb, hc⟩ := h.2.2.2.2.1 rfl
  refine ⟨Or.inr (by decide), by decide, ?_, ?_, ?_⟩
  · simpa using ha 0 (by decide)
  · simpa using hb 4 (by decide) (by decide)
  · simpa using hc 0 (by decide)

/-- C6: `CopySingleFloatToRegister` writes, to a floating-register
destination, an 8-byte value whose low 4 bytes are the source bits and
whose high 4 bytes are the NaN-box pattern `0xff` each (high 32 bits =
`0xffffffff`); to any other destination it writes only the raw low 4
bytes, leaving every other address unchanged. -/
theorem copySingleFloat_nanbox (isFloatRegOffset : Bool) (base offset : Nat)
    (src mem : Mem) :
    (isFloatRegOffset = true →
      (∀ j, j < 4 →
        copySingleFloatToRegister isFloatRegOffset base offset src mem
          (base + offset + j) = src j)
      ∧ (∀ j, 4 ≤ j → j < 8 →
        copySingleFloatToRegister isFloatRegOffset base offset src mem
          (base + offset + j) = 0xff))
    ∧ (isFloatRegOffset = false →
      (∀ j, j < 4 →
        copySingleFloatToRegister isFloatRegOffset base offset src mem
          (base + offset + j) = src j)
      ∧ (∀ a, a < base + offset ∨ base + offset + 4 ≤ a →
        copySingleFloatToRegister isFloatRegOffset base offset src mem a = mem a)) := by
  constructor
  · intro hb
    subst hb
    simp only [copySingleFloatToRegister, if_true]
    constructor
    · intro j hj
      rw [storeConst_out _ _ _ _ _ (Or.inl (by omega)),
        copyBytes_in _ _ _ _ _ _ (by omega) (by omega)]
      congr 1
      omega
    · intro j hj4 hj8
      rw [storeConst_in _ _ _ _ _ (by omega) (by omega)]
  · intro hb
    subst hb
    simp only [copySingleFloatToRegister, if_false, Bool.false_eq_true]
    constructor
    · intro j hj
      rw [copyBytes_in _ _ _ _ _ _ (by omega) (by omega)]
      congr 1
      omega
    · intro a ha
      exact copyBytes_out _ _ _ _ _ _ (by omega)

/-- Witness for C6 at both destination kinds. -/
theorem copySingleFloat_nanbox_witness :
    ((true : Bool) = true)
    ∧ copySingleFloatToRegister true 0 16 (fun p => p + 1) (fun _ => 7) 16 = 1
    ∧ copySingleFloatToRegister true 0 16 (fun p => p + 1) (fun _ => 7) 20 = 255
    ∧ ((false : Bool) = false)
    ∧ copySingleFloatToRegister false 0 16 (fun p => p + 1) (fun _ => 7) 16 = 1
    ∧ copySingleFloatToRegister false 0 16 (fun p => p + 1) (fun _ => 7) 20 = 7 := by
  have ht := copySingleFloat_nanbox true 0 16 (fun p => p + 1) (fun _ => 7)
  have hf := copySingleFloat_nanbox false 0 16 (fun p => p + 1) (fun _ => 7)
  refine ⟨rfl, ?_, ?_, rfl, ?_, ?_⟩
  · simpa using (ht.1 rfl).1 0 (by decide)
  · simpa using (ht.1 rfl).2 4 (by decide) (by decide)
  · simpa using (hf.2 rfl).1 0 (by decide)
  · simpa using (hf.2 rfl).2 20 (Or.inr (by decide))

/-! ## The constructor invariant (C8) -/

/-- C8 counterexample: the constructor assertion on UNIX_AMD64_ABI
accepts a descriptor that is present while the offset does not carry the
`StructInRegsOffset` sentinel, so presence of the layout descriptor is
not equivalent to the sentinel: the claimed "if and only if" fails in
the descriptor-present, non-sentinel-offset direction. -/
theorem argDestination_layout_iff_cex :
    argDestinationCtorAssert .unixAmd64 true 0 (-2) = true
    ∧ ¬(true = isStructPassedInRegsAmd64 0 (-2)) := by
  constructor
  · decide
  · decide

/-- C8 amended: the constructor enforces only one direction on
UNIX_AMD64_ABI — when the offset carries the sentinel
(`IsStructPassedInRegs`), the descriptor is present — and on
architectures lacking split-register composites the descriptor is always
absent; the converse direction is not enforced. -/
theorem argDestination_layout_invariant_amended (arch : Arch) (hasLayout : Bool)
    (offset sentinel : Int)
    (h : argDestinationCtorAssert arch hasLayout offset sentinel = true) :
    (arch = .unixAmd64 → isStructPassedInRegsAmd64 offset sentinel = true →
      hasLayout = true)
    ∧ (arch = .other → hasLayout = false) := by
  constructor
  · intro ha hs
    subst ha
    simp only [argDestinationCtorAssert, Bool.or_eq_true, bne_iff_ne] at h
    simp only [isStructPassedInRegsAmd64, beq_iff_eq] at hs
    rcases h with h | h
    · exact h
    · exact absurd hs h
  · intro ha
    subst ha
    simpa [argDestinationCtorAssert] using h

/-- Witness for the amended C8 on UNIX_AMD64_ABI with the sentinel
offset. -/
theorem argDestination_layout_invariant_witness :
    argDestinationCtorAssert .unixAmd64 true (-2) (-2) = true
    ∧ (Arch.unixAmd64 = Arch.unixAmd64 →
        isStructPassedInRegsAmd64 (-2) (-2) = true → (true : Bool) = true)
    ∧ (Arch.unixAmd64 = Arch.other → (true : Bool) = false) := by
  have h := argDestination_layout_invariant_amended .unixAmd64 true (-2) (-2) (by decide)
  exact ⟨by decide, h.1, h.2⟩
